import Mathlib

/-
Verification development for the PlaywrightSnap repository (snap.py).
The definitions below are shallow embeddings of the pure logic of the
source: the tile stitcher (stitch_tiles, lines 96-128), the directory-name
sanitizer (safe_dirname, lines 14-17), and the scroll-capture loop of snap
(lines 255-302).  Browser effects (scrolling, screenshots) are abstracted
as a scroll surface: a function from read index to reported scroll
position.  Machine integers are modelled as Nat / Int (Python ints are
unbounded, so no wrap-around is needed).
-/

namespace PlaywrightSnap

/-! ## Directory-name sanitizer (snap.py lines 14-17) -/

/-- Characters kept verbatim by the substitution
`re.sub(r'[^a-zA-Z0-9._-]+', '_', name)` (snap.py line 16); every maximal
run of other characters becomes a single underscore. -/
def isSafeChar (c : Char) : Bool :=
  ('a' ≤ c && c ≤ 'z') || ('A' ≤ c && c ≤ 'Z') || ('0' ≤ c && c ≤ '9')
    || c == '.' || c == '_' || c == '-'

/-- The eight characters of the https scheme stripped by
`re.sub(r'^https?://', '', url)` (snap.py line 15). -/
def httpsScheme : List Char := ['h', 't', 't', 'p', 's', ':', '/', '/']

/-- The seven characters of the http scheme stripped by
`re.sub(r'^https?://', '', url)` (snap.py line 15). -/
def httpScheme : List Char := ['h', 't', 't', 'p', ':', '/', '/']

/-- Boolean test that the first list is an initial segment of the second. -/
def leadsWith : List Char → List Char → Bool
  | [], _ => true
  | _ :: _, [] => false
  | a :: as, b :: bs => a == b && leadsWith as bs

/-- Strip one leading scheme, mirroring `re.sub(r'^https?://', '', url)`
(snap.py line 15): the regex removes exactly one occurrence anchored at the
start, matching the longer https variant when the s is present. -/
def stripScheme (url : List Char) : List Char :=
  if leadsWith httpsScheme url then url.drop 8
  else if leadsWith httpScheme url then url.drop 7
  else url

/-- Replace every maximal run of non-safe characters by one underscore,
mirroring `re.sub(r'[^a-zA-Z0-9._-]+', '_', name)` (snap.py line 16).  The
boolean flag records whether the previous character was part of a run that
already emitted its underscore. -/
def collapseAux : Bool → List Char → List Char
  | _, [] => []
  | prevUnsafe, c :: rest =>
    if isSafeChar c then c :: collapseAux false rest
    else if prevUnsafe then collapseAux true rest
    else '_' :: collapseAux true rest

/-- Embedding of safe_dirname (snap.py lines 14-17): strip one scheme,
collapse unsafe runs to underscores, truncate to 120 characters. -/
def safe_dirname (url : List Char) : List Char :=
  (collapseAux false (stripScheme url)).take 120

/-- Sample URL used to exercise the sanitizer on a concrete input. -/
def sampleUrl : String := "https://example.com/path to page?q=1"

/-! ## Tile stitcher (snap.py lines 96-128)

A tile is modelled by its pixel dimensions (width, height).  stitch_tiles
opens every tile, raises RuntimeError on an empty list, computes the canvas
width as the maximum tile width and the canvas height as the sum over tiles
of max(1, height minus the applied crops), then crops and pastes each tile.
The crop box for tile i is (0, top_crop, w_i, h_i - bottom_crop); the image
library (Pillow) raises ValueError when the lower edge of a crop box is
less than its upper edge, which happens exactly when
h_i - bottom_crop < top_crop.  Only the canvas-height sum is floored at 1;
the crop boxes are not clamped. -/

/-- Message of the RuntimeError raised on an empty tile list
(snap.py line 102). -/
def noTilesMsg : String := "No tiles to stitch"

/-- Message of the ValueError raised by the image library when a crop box
has its lower edge above its upper edge (inverted crop). -/
def invertedCropMsg : String := "Coordinate lower is less than upper"

/-- Pixels cropped from the top of tile i: overlap_top for every tile
except the first (snap.py line 119). -/
def topCrop (i ot : Nat) : Nat := if 0 < i then ot else 0

/-- Pixels cropped from the bottom of tile i out of n: overlap_bottom for
every tile except the last (snap.py line 120). -/
def bottomCrop (i n ob : Nat) : Nat := if i < n - 1 then ob else 0

/-- Contribution of tile i (height h) to the canvas height:
max(1, h - applied top crop - applied bottom crop) (snap.py lines 108-114). -/
def tileEff (n i h ot ob : Nat) : Int :=
  max 1 ((h : Int) - (topCrop i ot : Int) - (bottomCrop i n ob : Int))

/-- The canvas-height accumulation loop of snap.py lines 107-114, indexed
from i. -/
def stitchHeightGo (n ot ob : Nat) : Nat → List Nat → Int
  | _, [] => 0
  | i, h :: rest => tileEff n i h ot ob + stitchHeightGo n ot ob (i + 1) rest

/-- Canvas height computed by stitch_tiles (snap.py lines 107-114). -/
def stitchHeight (heights : List Nat) (ot ob : Nat) : Int :=
  stitchHeightGo heights.length ot ob 0 heights

/-- Whether the crop box of tile i (height h) is inverted, i.e. the image
library raises on `im.crop((0, top_crop, w, h - bottom_crop))`
(snap.py lines 119-122). -/
def cropInverted (n i h ot ob : Nat) : Bool :=
  decide (((h : Int) - (bottomCrop i n ob : Int)) < (topCrop i ot : Int))

/-- Whether some tile from index i on has an inverted crop box; the paste
loop of snap.py lines 118-124 raises at the first such tile. -/
def anyCropInverted (n ot ob : Nat) : Nat → List Nat → Bool
  | _, [] => false
  | i, h :: rest => cropInverted n i h ot ob || anyCropInverted n ot ob (i + 1) rest

/-- Observable effects of one stitch_tiles call: how many tile images were
opened and closed, which files were written, and the outcome (canvas
dimensions on success, error message otherwise). -/
structure StitchTrace where
  opened : Nat
  closed : Nat
  written : List String
  outcome : Except String (Nat × Nat)

/-- Output path used when exercising the stitcher on concrete inputs. -/
def defaultOut : String := "stitched.png"

/-- Embedding of stitch_tiles (snap.py lines 96-128).  All tiles are opened
first; an empty list raises RuntimeError; the paste loop raises at the
first inverted crop box, before the canvas is saved and before any tile is
closed; on success the canvas is saved to outPath and every tile is closed.
The input tile files are only ever opened, never written. -/
def stitchExec (tiles : List (Nat × Nat)) (ot ob : Nat) (outPath : String) :
    StitchTrace :=
  if tiles.isEmpty then
    { opened := tiles.length, closed := 0, written := [],
      outcome := Except.error noTilesMsg }
  else
    let heights := tiles.map Prod.snd
    if anyCropInverted tiles.length ot ob 0 heights then
      { opened := tiles.length, closed := 0, written := [],
        outcome := Except.error invertedCropMsg }
    else
      { opened := tiles.length, closed := tiles.length, written := [outPath],
        outcome := Except.ok ((tiles.map Prod.fst).foldl max 0,
                              (stitchHeight heights ot ob).toNat) }

/-- Outcome of stitch_tiles: the saved canvas dimensions, or the raised
error. -/
def stitchTiles (tiles : List (Nat × Nat)) (ot ob : Nat) :
    Except String (Nat × Nat) :=
  (stitchExec tiles ot ob defaultOut).outcome

/-- Spec-side height formula for every tile after the first, written from
the words of the spec: middle tiles lose both overlaps, the last tile loses
only overlap_top, each contribution floored at 1. -/
def specHeightAux (ot ob : Nat) : List Nat → Int
  | [] => 0
  | [h] => max 1 ((h : Int) - (ot : Int))
  | h :: h2 :: rest =>
      max 1 ((h : Int) - (ot : Int) - (ob : Int)) + specHeightAux ot ob (h2 :: rest)

/-- Spec-side output-height formula, written from the words of the spec:
the first tile loses only overlap_bottom (nothing when it is also the
last), and the remaining tiles follow specHeightAux. -/
def specHeight (ot ob : Nat) : List Nat → Int
  | [] => 0
  | [h] => max 1 (h : Int)
  | h :: h2 :: rest =>
      max 1 ((h : Int) - (ob : Int)) + specHeightAux ot ob (h2 :: rest)

/-! ## Scroll-capture loop (snap.py lines 255-302)

The live page is abstracted as a scroll surface `reads : Nat → Int`, where
`reads k` is the position returned by the k-th call to
get_current_scroll_position.  The loop captures tile 1 at `reads 0`
unconditionally, then while `idx <= max_tiles` scrolls, reads the new
position, compares it with the previous one, and either stops (equal) or
captures a tile at the new position.  The captured tiles are identified by
the position at which they were taken. -/

/-- The while loop of snap.py lines 277-299.  `prev` is
previous_scroll_pos, `k` indexes the next position read, and `fuel` is the
number of remaining iterations allowed by the `idx <= max_tiles` guard.
Returns the captured positions and whether the loop ran out of iterations
(`idx > max_tiles` after the loop, the warning of lines 301-302). -/
def loopAuxW (reads : Nat → Int) : Int → Nat → Nat → List Int × Bool
  | _, _, 0 => ([], true)
  | prev, k, fuel + 1 =>
    let cur := reads k
    if cur = prev then ([], false)
    else
      let r := loopAuxW reads cur (k + 1) fuel
      (cur :: r.1, r.2)

/-- The whole capture loop for one URL (snap.py lines 256-302): tile 1 is
captured at `reads 0` before the loop (lines 264-271), then the while loop
runs at most maxTiles - 1 more iterations (idx runs from 2 to max_tiles).
Returns the captured positions and the cap warning flag. -/
def captureTilesW (reads : Nat → Int) (maxTiles : Nat) : List Int × Bool :=
  let r := loopAuxW reads (reads 0) 1 (maxTiles - 1)
  (reads 0 :: r.1, r.2)

/-- Tiles recorded in page_meta.json (snap.py lines 309-317): the full
captured list, written after the loop whether or not the cap warning
fired. -/
def pageMetaTiles (reads : Nat → Int) (maxTiles : Nat) : List Int :=
  (captureTilesW reads maxTiles).1

/-- Concrete scroll surface that advances by 460 per read and stops at
1000: positions 0, 460, 920, 1000, 1000, ... -/
def stagReads (k : Nat) : Int := min (460 * (k : Int)) 1000

/-- Concrete scroll surface that advances by 920 per read forever,
modelling an infinite-scroll page far taller than the configured cap. -/
def linReads (k : Nat) : Int := 920 * (k : Int)

/-! ## Scalar parameters of the loop -/

/-- The clamped step computed at snap.py line 251
(`step = max(1, viewport_h - tile_overlap)`); it is only printed. -/
def printedStep (viewportH tileOverlap : Int) : Int :=
  max 1 (viewportH - tileOverlap)

/-- The scroll delta actually passed to scroll_and_wait by the loop
(snap.py lines 274 and 279: `scroll_step = viewport_h - tile_overlap`),
with no clamp. -/
def issuedScrollDelta (viewportH tileOverlap : Int) : Int :=
  viewportH - tileOverlap

/-- The fixed settle wait issued after each scroll step:
`page.wait_for_timeout(250)` at snap.py line 64. -/
def fixedSettleWaitMs : Nat := 250

set_option linter.unusedVariables false in
/-- Per-step settle wait of a run of snap as a function of its
scroll_delay_ms parameter: the parameter is never read inside snap or
scroll_and_wait, so every run waits fixedSettleWaitMs. -/
def perStepSettleWait (scroll_delay_ms : Nat) : Nat := fixedSettleWaitMs

/-- The capped total height computed at snap.py lines 248-249
(`total_height = min(total_height, cap_height)`); it is printed and stored
in page_meta.json but never consulted by the capture loop. -/
def cappedTotalHeight (contentHeight capHeight : Int) : Int :=
  min contentHeight capHeight

/-! ## Lemmas about the sanitizer -/

theorem mem_collapseAux_safe :
    ∀ (l : List Char) (b : Bool) (c : Char),
      c ∈ collapseAux b l → isSafeChar c = true := by
  intro l
  induction l with
  | nil => intro b c hc; simp [collapseAux] at hc
  | cons d t ih =>
    intro b c hc
    by_cases hd : isSafeChar d
    · simp [collapseAux, hd] at hc
      rcases hc with hc | hc
      · subst hc; exact hd
      · exact ih false c hc
    · cases b with
      | true =>
        simp [collapseAux, hd] at hc
        exact ih true c hc
      | false =>
        simp [collapseAux, hd] at hc
        rcases hc with hc | hc
        · subst hc; decide
        · exact ih true c hc

theorem collapseAux_flag_of_head_safe (l : List Char)
    (hl : ∀ c ∈ l.take 1, isSafeChar c = true) :
    collapseAux true l = collapseAux false l := by
  cases l with
  | nil => rfl
  | cons d t =>
    have hd : isSafeChar d = true := hl d (by simp)
    simp [collapseAux, hd]

theorem collapseAux_safe_run (good rest : List Char)
    (hg : ∀ c ∈ good, isSafeChar c = true) :
    collapseAux false (good ++ rest) = good ++ collapseAux false rest := by
  induction good with
  | nil => simp
  | cons d t ih =>
    have hd : isSafeChar d = true := hg d (by simp)
    have ht : ∀ c ∈ t, isSafeChar c = true := fun c hc => hg c (by simp [hc])
    simp [collapseAux, hd, ih ht]

theorem collapseAux_unsafe_drop :
    ∀ (bad rest : List Char), (∀ c ∈ bad, isSafeChar c = false) →
      collapseAux true (bad ++ rest) = collapseAux true rest := by
  intro bad
  induction bad with
  | nil => intro rest _; rfl
  | cons d t ih =>
    intro rest hb
    have hd : isSafeChar d = false := hb d (by simp)
    have ht : ∀ c ∈ t, isSafeChar c = false := fun c hc => hb c (by simp [hc])
    simp [collapseAux, hd, ih rest ht]

theorem collapseAux_unsafe_run (bad rest : List Char)
    (hne : bad ≠ []) (hb : ∀ c ∈ bad, isSafeChar c = false)
    (hr : ∀ c ∈ rest.take 1, isSafeChar c = true) :
    collapseAux false (bad ++ rest) = '_' :: collapseAux false rest := by
  cases bad with
  | nil => exact absurd rfl hne
  | cons d t =>
    have hd : isSafeChar d = false := hb d (by simp)
    have ht : ∀ c ∈ t, isSafeChar c = false := fun c hc => hb c (by simp [hc])
    have hdrop := collapseAux_unsafe_drop t rest ht
    have hflag := collapseAux_flag_of_head_safe rest hr
    simp [collapseAux, hd, hdrop, hflag]

/-- C10: safe_dirname is deterministic, strips one leading http or https
scheme, replaces every maximal run of characters outside the safe class by
a single underscore, emits only characters of the safe class, and emits at
most 120 characters. -/
theorem safe_dirname_spec :
    (∀ u v : List Char, u = v → safe_dirname u = safe_dirname v) ∧
    (∀ u : List Char, (safe_dirname u).length ≤ 120) ∧
    (∀ u : List Char, ∀ c ∈ safe_dirname u, isSafeChar c = true) ∧
    (∀ r : List Char, stripScheme (httpsScheme ++ r) = r) ∧
    (∀ r : List Char, stripScheme (httpScheme ++ r) = r) ∧
    (∀ good rest : List Char, (∀ c ∈ good, isSafeChar c = true) →
        collapseAux false (good ++ rest) = good ++ collapseAux false rest) ∧
    (∀ bad rest : List Char, bad ≠ [] → (∀ c ∈ bad, isSafeChar c = false) →
        (∀ c ∈ rest.take 1, isSafeChar c = true) →
        collapseAux false (bad ++ rest) = '_' :: collapseAux false rest) := by
  refine ⟨?_, ?_, ?_, ?_, ?_, collapseAux_safe_run, collapseAux_unsafe_run⟩
  · intro u v h; rw [h]
  · intro u
    simp only [safe_dirname, List.length_take]
    exact Nat.min_le_left _ _
  · intro u c hc
    have hc' : c ∈ collapseAux false (stripScheme u) :=
      List.take_subset _ _ hc
    exact mem_collapseAux_safe _ false c hc'
  · intro r; rfl
  · intro r; rfl

/-- Witness for C10 at concrete inputs. -/
theorem safe_dirname_spec_witness :
    (safe_dirname (sampleUrl.toList)).length ≤ 120 ∧
    collapseAux false ((['?', ' '] : List Char) ++ ['a']) =
      '_' :: collapseAux false ['a'] :=
  ⟨safe_dirname_spec.2.1 (sampleUrl.toList),
   safe_dirname_spec.2.2.2.2.2.2 ['?', ' '] ['a'] (by decide) (by decide)
     (by decide)⟩

/-! ## Lemmas about the scroll-capture loop -/

theorem loopAuxW_stagnation (reads : Nat → Int) (j : Nat)
    (hj : reads j = reads (j - 1))
    (hfirst : ∀ i, i < j → 1 ≤ i → reads i ≠ reads (i - 1)) :
    ∀ fuel k, 1 ≤ k → k ≤ j → j - k < fuel →
    loopAuxW reads (reads (k - 1)) k fuel =
      ((List.range' k (j - k)).map reads, false) := by
  intro fuel
  induction fuel with
  | zero => intro k _ _ hf; omega
  | succ fuel ih =>
    intro k hk1 hkj hf
    by_cases hkj' : k = j
    · subst hkj'
      simp [loopAuxW, hj]
    · have hklt : k < j := lt_of_le_of_ne hkj hkj'
      have hne : reads k ≠ reads (k - 1) := hfirst k hklt hk1
      have hrec := ih (k + 1) (by omega) (by omega) (by omega)
      have hk' : k + 1 - 1 = k := by omega
      rw [hk'] at hrec
      have hsplit : j - k = (j - (k + 1)) + 1 := by omega
      simp only [loopAuxW, hne, if_false, hrec, hsplit, List.range'_succ,
        List.map_cons]

/-- C2: whenever the position read after a scroll step equals the position
recorded before that step, and that is the first such coincidence (at read
index j, within the iteration budget), the loop stops without capturing
another tile: it emits exactly the tiles taken at reads 0 .. j-1 (so the
stagnating position, first seen at read j-1, is captured once and never
duplicated), and the cap warning does not fire. -/
theorem capture_stagnation_stops (reads : Nat → Int) (j : Nat)
    (hj1 : 1 ≤ j) (hj : reads j = reads (j - 1))
    (hfirst : ∀ i, i < j → 1 ≤ i → reads i ≠ reads (i - 1))
    (hcap : j ≤ 149) :
    (captureTilesW reads 150).1 = (List.range j).map reads ∧
    (captureTilesW reads 150).2 = false := by
  have h := loopAuxW_stagnation reads j hj hfirst 149 1 le_rfl hj1 (by omega)
  have h0 : (1 : Nat) - 1 = 0 := rfl
  rw [h0] at h
  have hr : captureTilesW reads 150 =
      (reads 0 :: (loopAuxW reads (reads 0) 1 149).1,
       (loopAuxW reads (reads 0) 1 149).2) := rfl
  rw [hr, h]
  constructor
  · obtain ⟨m, hm⟩ : ∃ m, j = m + 1 := ⟨j - 1, by omega⟩
    subst hm
    have hm1 : m + 1 - 1 = m := by omega
    rw [hm1]
    rw [List.range_eq_range', List.range'_succ, List.map_cons]
  · rfl

/-- Witness for C2: a surface advancing 0, 460, 920, 1000 and then stuck
at 1000 yields exactly four tiles and no cap warning. -/
theorem capture_stagnation_stops_witness :
    (captureTilesW stagReads 150).1 = [0, 460, 920, 1000] ∧
    (captureTilesW stagReads 150).2 = false := by
  have h := capture_stagnation_stops stagReads 4 (by decide) (by decide)
    (by decide) (by decide)
  exact ⟨h.1.trans (by decide), h.2⟩

theorem loopAuxW_length_le (reads : Nat → Int) :
    ∀ (fuel : Nat) (prev : Int) (k : Nat),
      ((loopAuxW reads prev k fuel).1).length ≤ fuel := by
  intro fuel
  induction fuel with
  | zero => intro prev k; simp [loopAuxW]
  | succ fuel ih =>
    intro prev k
    simp only [loopAuxW]
    by_cases h : reads k = prev
    · simp [h]
    · simp only [h, if_false, List.length_cons]
      exact Nat.succ_le_succ (ih (reads k) (k + 1))

theorem loopAuxW_warned_iff (reads : Nat → Int) :
    ∀ (fuel : Nat) (prev : Int) (k : Nat),
      (loopAuxW reads prev k fuel).2 = true ↔
        ((loopAuxW reads prev k fuel).1).length = fuel := by
  intro fuel
  induction fuel with
  | zero => intro prev k; simp [loopAuxW]
  | succ fuel ih =>
    intro prev k
    simp only [loopAuxW]
    by_cases h : reads k = prev
    · simp [h]
    · simp only [h, if_false, List.length_cons]
      rw [ih (reads k) (k + 1)]
      omega

/-- C7: for every scroll surface the capture loop terminates with at most
150 tiles; the cap warning fires exactly when the full budget of 150 tiles
was captured (so reaching the cap is a warning, not an error), and the
tiles persisted to page_meta.json are exactly the captured tiles. -/
theorem capture_tile_cap (reads : Nat → Int) :
    ((captureTilesW reads 150).1).length ≤ 150 ∧
    ((captureTilesW reads 150).2 = true ↔
      ((captureTilesW reads 150).1).length = 150) ∧
    pageMetaTiles reads 150 = (captureTilesW reads 150).1 := by
  have hlen := loopAuxW_length_le reads 149 (reads 0) 1
  have hiff := loopAuxW_warned_iff reads 149 (reads 0) 1
  have hr : captureTilesW reads 150 =
      (reads 0 :: (loopAuxW reads (reads 0) 1 149).1,
       (loopAuxW reads (reads 0) 1 149).2) := rfl
  refine ⟨?_, ?_, rfl⟩
  · rw [hr]; simpa using Nat.succ_le_succ hlen
  · rw [hr]; simpa using hiff

/-- C3 (code bug): the loop issues the unclamped delta
viewport_height - tile_overlap; with viewport 1000 and overlap 1080 the
issued delta is -80, while the clamped step computed and printed at line
251 is 1, so the issued delta is not max(1, viewport_height - overlap). -/
theorem scroll_delta_unclamped :
    printedStep 1000 1080 = 1 ∧ issuedScrollDelta 1000 1080 = -80 ∧
    issuedScrollDelta 1000 1080 < 1 := by decide

/-- C6 (code bug): the per-step settle wait is the hardcoded 250 ms of
scroll_and_wait; two runs with scroll_delay_ms 350 and 1000 issue the same
wait, so the wait does not equal (or vary with) scroll_delay_ms. -/
theorem settle_delay_hardcoded :
    perStepSettleWait 350 = 250 ∧ perStepSettleWait 1000 = 250 ∧
    perStepSettleWait 350 = perStepSettleWait 1000 := by decide

set_option maxRecDepth 4000 in
/-- C4 (code bug): on a surface that keeps advancing 920 px per step
(content far taller than the 50000 cap), the loop runs to the tile cap and
records a tile at offset 137080, far beyond the capped total height of
50000, because total_height is never consulted by the loop. -/
theorem capture_ignores_capped_height :
    cappedTotalHeight 200000 50000 = 50000 ∧
    ((captureTilesW linReads 150).1).length = 150 ∧
    (137080 : Int) ∈ (captureTilesW linReads 150).1 ∧
    (50000 : Int) < 137080 := by decide

/-! ## Lemmas about the stitcher -/

theorem stitchHeightGo_eq_aux (ot ob n : Nat) :
    ∀ (l : List Nat) (i : Nat), 1 ≤ i → i + l.length = n →
      stitchHeightGo n ot ob i l = specHeightAux ot ob l := by
  intro l
  induction l with
  | nil => intro i _ _; rfl
  | cons h t ih =>
    intro i hi hlen
    cases t with
    | nil =>
      simp only [List.length_cons, List.length_nil] at hlen
      simp only [stitchHeightGo, specHeightAux]
      have h1 : topCrop i ot = ot := by
        simp only [topCrop]; rw [if_pos (by omega : 0 < i)]
      have h2 : bottomCrop i n ob = 0 := by
        simp only [bottomCrop]; rw [if_neg (by omega : ¬ i < n - 1)]
      simp [tileEff, h1, h2]
    | cons h2 t2 =>
      simp only [List.length_cons] at hlen
      have h1 : topCrop i ot = ot := by
        simp only [topCrop]; rw [if_pos (by omega : 0 < i)]
      have h2' : bottomCrop i n ob = ob := by
        simp only [bottomCrop]; rw [if_pos (by omega : i < n - 1)]
      have hrec := ih (i + 1) (by omega) (by simp; omega)
      conv_lhs => rw [stitchHeightGo]
      conv_rhs => rw [specHeightAux]
      rw [hrec]
      simp [tileEff, h1, h2']

theorem stitchHeight_eq_spec (ot ob : Nat) (heights : List Nat) :
    stitchHeight heights ot ob = specHeight ot ob heights := by
  cases heights with
  | nil => rfl
  | cons h t =>
    cases t with
    | nil =>
      simp [stitchHeight, stitchHeightGo, specHeight, tileEff, topCrop,
        bottomCrop]
    | cons h2 t2 =>
      have h1 : topCrop 0 ot = 0 := rfl
      have h2' : bottomCrop 0 (t2.length + 1 + 1) ob = ob := by
        simp only [bottomCrop]
        rw [if_pos (by omega : 0 < t2.length + 1 + 1 - 1)]
      have hrec := stitchHeightGo_eq_aux ot ob (h :: h2 :: t2).length
        (h2 :: t2) 1 le_rfl (by simp; omega)
      show stitchHeightGo (h :: h2 :: t2).length ot ob 0 (h :: h2 :: t2) = _
      conv_lhs => rw [stitchHeightGo]
      conv_rhs => rw [specHeight]
      simp only [Nat.zero_add]
      rw [hrec]
      simp [tileEff, h1, h2']

theorem specHeightAux_nonneg (ot ob : Nat) :
    ∀ l : List Nat, 0 ≤ specHeightAux ot ob l := by
  intro l
  induction l with
  | nil => simp [specHeightAux]
  | cons h t ih =>
    cases t with
    | nil =>
      simp only [specHeightAux]
      exact le_trans zero_le_one (le_max_left _ _)
    | cons h2 t2 =>
      simp only [specHeightAux]
      exact add_nonneg (le_trans zero_le_one (le_max_left _ _)) ih

theorem specHeight_nonneg (ot ob : Nat) (l : List Nat) :
    0 ≤ specHeight ot ob l := by
  cases l with
  | nil => simp [specHeight]
  | cons h t =>
    cases t with
    | nil =>
      simp only [specHeight]
      exact le_trans zero_le_one (le_max_left _ _)
    | cons h2 t2 =>
      simp only [specHeight]
      exact add_nonneg (le_trans zero_le_one (le_max_left _ _))
        (specHeightAux_nonneg ot ob _)

theorem le_foldl_max (l : List Nat) : ∀ a : Nat, a ≤ l.foldl max a := by
  induction l with
  | nil => intro a; exact le_rfl
  | cons b t ih =>
    intro a
    simp only [List.foldl_cons]
    exact le_trans (Nat.le_max_left a b) (ih (max a b))

theorem foldl_max_le_of_mem (l : List Nat) :
    ∀ (a x : Nat), x ∈ l → x ≤ l.foldl max a := by
  induction l with
  | nil => intro a x hx; simp at hx
  | cons b t ih =>
    intro a x hx
    simp only [List.foldl_cons]
    rcases List.mem_cons.mp hx with hx | hx
    · subst hx
      exact le_trans (Nat.le_max_right a x) (le_foldl_max t (max a x))
    · exact ih (max a b) x hx

theorem foldl_max_eq_or_mem (l : List Nat) :
    ∀ a : Nat, l.foldl max a = a ∨ l.foldl max a ∈ l := by
  induction l with
  | nil => intro a; left; rfl
  | cons b t ih =>
    intro a
    simp only [List.foldl_cons]
    rcases ih (max a b) with h | h
    · rw [h]
      rcases Nat.le_total a b with hab | hab
      · right; rw [Nat.max_eq_right hab]; exact List.mem_cons_self _ _
      · left; exact Nat.max_eq_left hab
    · right; exact List.mem_cons_of_mem b h

theorem foldl_max_zero_mem (l : List Nat) (hne : l ≠ []) :
    l.foldl max 0 ∈ l := by
  rcases foldl_max_eq_or_mem l 0 with h | h
  · cases l with
    | nil => exact absurd rfl hne
    | cons b t =>
      have hb : b ≤ (b :: t).foldl max 0 :=
        foldl_max_le_of_mem _ 0 b (List.mem_cons_self _ _)
      rw [h] at hb
      have hb0 : b = 0 := Nat.le_zero.mp hb
      rw [h, ← hb0]
      exact List.mem_cons_self _ _
  · exact h

theorem anyCropInverted_eq_false (n ot ob : Nat) :
    ∀ (l : List Nat) (i0 : Nat),
      (∀ k, (hk : k < l.length) →
        topCrop (i0 + k) ot + bottomCrop (i0 + k) n ob ≤ l[k]) →
      anyCropInverted n ot ob i0 l = false := by
  intro l
  induction l with
  | nil => intro i0 _; rfl
  | cons h t ih =>
    intro i0 hfit
    have h0 : topCrop i0 ot + bottomCrop i0 n ob ≤ h := by
      have h1 := hfit 0 (by simp)
      simpa using h1
    have hrec : anyCropInverted n ot ob (i0 + 1) t = false := by
      apply ih
      intro k hk
      have hkk : i0 + (k + 1) = i0 + 1 + k := by omega
      have h2 := hfit (k + 1) (by simpa using Nat.succ_lt_succ hk)
      rw [hkk] at h2
      simpa using h2
    have hcrop : cropInverted n i0 h ot ob = false := by
      simp only [cropInverted, decide_eq_false_iff_not, not_lt]
      omega
    simp [anyCropInverted, hcrop, hrec]

theorem anyCropInverted_eq_true (n ot ob : Nat) :
    ∀ (l : List Nat) (i0 k : Nat) (hk : k < l.length),
      l[k] + 1 ≤ topCrop (i0 + k) ot + bottomCrop (i0 + k) n ob →
      anyCropInverted n ot ob i0 l = true := by
  intro l
  induction l with
  | nil => intro i0 k hk; simp at hk
  | cons h t ih =>
    intro i0 k hk hviol
    cases k with
    | zero =>
      have hcrop : cropInverted n i0 h ot ob = true := by
        simp only [cropInverted, decide_eq_true_eq]
        simp only [Nat.add_zero] at hviol
        simp only [List.getElem_cons_zero] at hviol
        omega
      simp [anyCropInverted, hcrop]
    | succ k' =>
      have hk' : k' < t.length := by simpa using hk
      have hkk : i0 + (k' + 1) = i0 + 1 + k' := by omega
      rw [hkk] at hviol
      have ht := ih (i0 + 1) k' hk' (by simpa using hviol)
      simp [anyCropInverted, ht]

/-- C8: stitching an empty tile list always raises the empty-input
RuntimeError and writes no output file, for every overlap pair and output
path. -/
theorem stitch_empty_error (ot ob : Nat) (out : String) :
    (stitchExec [] ot ob out).outcome = Except.error noTilesMsg ∧
    (stitchExec [] ot ob out).written = [] := ⟨rfl, rfl⟩

/-- C1 (amended): for every non-empty tile list whose applied crops fit
within each tile height (top crop + bottom crop at most the tile height),
stitch saves an image whose width is the maximum of the tile widths and
whose height is the sum over tiles of max(1, height minus overlap_top for
every tile except the first and minus overlap_bottom for every tile except
the last); for crop pairs violating that side condition stitch raises
instead of producing an image (see the counterexample). -/
theorem stitch_output_dimensions (tiles : List (Nat × Nat)) (ot ob : Nat)
    (hne : tiles ≠ [])
    (hfit : ∀ i, (hi : i < tiles.length) →
      topCrop i ot + bottomCrop i tiles.length ob ≤ (tiles[i]).2) :
    ∃ w h, stitchTiles tiles ot ob = Except.ok (w, h) ∧
      w ∈ tiles.map Prod.fst ∧ (∀ x ∈ tiles.map Prod.fst, x ≤ w) ∧
      (h : Int) = specHeight ot ob (tiles.map Prod.snd) := by
  have hmapne : tiles.map Prod.fst ≠ [] := by simpa using hne
  have hempty : tiles.isEmpty = false := by
    cases tiles with
    | nil => exact absurd rfl hne
    | cons a t => rfl
  have hany : anyCropInverted tiles.length ot ob 0 (tiles.map Prod.snd) = false := by
    apply anyCropInverted_eq_false
    intro k hk
    have hk' : k < tiles.length := by simpa using hk
    have h1 := hfit k hk'
    simpa using h1
  refine ⟨(tiles.map Prod.fst).foldl max 0,
    (stitchHeight (tiles.map Prod.snd) ot ob).toNat, ?_, ?_, ?_, ?_⟩
  · simp [stitchTiles, stitchExec, hempty, hany]
  · exact foldl_max_zero_mem _ hmapne
  · intro x hx; exact foldl_max_le_of_mem _ 0 x hx
  · rw [stitchHeight_eq_spec]
    exact Int.toNat_of_nonneg (specHeight_nonneg ot ob _)

/-- Witness for C1: two 100x100 tiles with overlap pair (20, 20) stitch to
a 100x160 image, and two 100x50 tiles with overlap pair (0, 0) stitch to a
100x100 image. -/
theorem stitch_output_dimensions_witness :
    (∃ w h, stitchTiles [(100, 100), (100, 100)] 20 20 = Except.ok (w, h) ∧
      w ∈ ([(100, 100), (100, 100)] : List (Nat × Nat)).map Prod.fst ∧
      (∀ x ∈ ([(100, 100), (100, 100)] : List (Nat × Nat)).map Prod.fst,
        x ≤ w) ∧
      (h : Int) = specHeight 20 20
        (([(100, 100), (100, 100)] : List (Nat × Nat)).map Prod.snd)) ∧
    stitchTiles [(100, 100), (100, 100)] 20 20 = Except.ok (100, 160) ∧
    stitchTiles [(100, 50), (100, 50)] 0 0 = Except.ok (100, 100) :=
  ⟨stitch_output_dimensions [(100, 100), (100, 100)] 20 20 (by decide)
      (by decide),
   rfl, rfl⟩

/-- C1 counterexample: with tiles 100x50 and 100x50 and crop pair (60, 0)
(a crop pair the claim quantifies over) stitch raises the inverted-crop
error and produces no image, so the claimed dimensions do not hold for
every crop pair. -/
theorem stitch_output_dimensions_cex :
    stitchTiles [(100, 50), (100, 50)] 60 0 = Except.error invertedCropMsg :=
  rfl

/-- C5 (amended): the floor-at-1 rule clamps only the computed canvas
height, not the per-tile crop boxes.  For a non-empty tile list, stitch
raises the inverted-crop error whenever the applied crops of some tile
exceed its height, and succeeds whenever every tile's applied crops fit
within its height. -/
theorem stitch_crop_clamp_behavior (tiles : List (Nat × Nat)) (ot ob : Nat)
    (hne : tiles ≠ []) :
    ((∃ i, ∃ hi : i < tiles.length,
        (tiles[i]).2 + 1 ≤ topCrop i ot + bottomCrop i tiles.length ob) →
      stitchTiles tiles ot ob = Except.error invertedCropMsg) ∧
    ((∀ i, (hi : i < tiles.length) →
        topCrop i ot + bottomCrop i tiles.length ob ≤ (tiles[i]).2) →
      ∃ w h, stitchTiles tiles ot ob = Except.ok (w, h)) := by
  have hempty : tiles.isEmpty = false := by
    cases tiles with
    | nil => exact absurd rfl hne
    | cons a t => rfl
  constructor
  · rintro ⟨i, hi, hviol⟩
    have hany : anyCropInverted tiles.length ot ob 0 (tiles.map Prod.snd) = true := by
      apply anyCropInverted_eq_true tiles.length ot ob (tiles.map Prod.snd)
        0 i (by simpa using hi)
      simpa using hviol
    simp [stitchTiles, stitchExec, hempty, hany]
  · intro hfit
    have hany : anyCropInverted tiles.length ot ob 0 (tiles.map Prod.snd) = false := by
      apply anyCropInverted_eq_false
      intro k hk
      have hk' : k < tiles.length := by simpa using hk
      have h1 := hfit k hk'
      simpa using h1
    exact ⟨(tiles.map Prod.fst).foldl max 0,
      (stitchHeight (tiles.map Prod.snd) ot ob).toNat,
      by simp [stitchTiles, stitchExec, hempty, hany]⟩

/-- Witness for C5: three 50x10 tiles with overlap pair (8, 8) have a
middle tile cropped 8 + 8 > 10, so stitch raises the inverted-crop
error. -/
theorem stitch_crop_clamp_behavior_witness :
    stitchTiles [(50, 10), (50, 10), (50, 10)] 8 8 =
      Except.error invertedCropMsg :=
  (stitch_crop_clamp_behavior [(50, 10), (50, 10), (50, 10)] 8 8
      (by decide)).1 ⟨1, by decide, by decide⟩

/-- C5 counterexample: three 100x30 tiles with overlap_top = 20 and
overlap_bottom = 20 (a middle tile cropped on both sides with
20 + 20 > 30) make stitch raise instead of succeeding, so stitch does not
always succeed when the combined overlap exceeds a tile height. -/
theorem stitch_crop_clamp_cex :
    stitchTiles [(100, 30), (100, 30), (100, 30)] 20 20 =
      Except.error invertedCropMsg := rfl

/-- C9 (amended): on success every opened tile image is closed and exactly
one output file is written (the input tile files are never written); but
when composition raises on an inverted crop box, no opened tile is closed
and no file is written — the tiles are released only on the success
path. -/
theorem stitch_resource_discipline (tiles : List (Nat × Nat)) (ot ob : Nat)
    (out : String) (hne : tiles ≠ []) :
    ((∃ d, (stitchExec tiles ot ob out).outcome = Except.ok d) →
      (stitchExec tiles ot ob out).closed = (stitchExec tiles ot ob out).opened ∧
      (stitchExec tiles ot ob out).written = [out]) ∧
    ((∃ e, (stitchExec tiles ot ob out).outcome = Except.error e) →
      (stitchExec tiles ot ob out).closed = 0 ∧
      0 < (stitchExec tiles ot ob out).opened ∧
      (stitchExec tiles ot ob out).written = []) := by
  have hempty : tiles.isEmpty = false := by
    cases tiles with
    | nil => exact absurd rfl hne
    | cons a t => rfl
  by_cases hany : anyCropInverted tiles.length ot ob 0 (tiles.map Prod.snd) = true
  · constructor
    · rintro ⟨d, hd⟩
      simp [stitchExec, hempty, hany] at hd
    · intro _
      refine ⟨by simp [stitchExec, hempty, hany], ?_,
        by simp [stitchExec, hempty, hany]⟩
      simp only [stitchExec, hempty]
      simp [hany, List.length_pos, hne]
  · have hany' : anyCropInverted tiles.length ot ob 0 (tiles.map Prod.snd) = false :=
      Bool.not_eq_true _ ▸ Bool.eq_false_iff.mpr hany
    constructor
    · intro _
      exact ⟨by simp [stitchExec, hempty, hany'], by simp [stitchExec, hempty, hany']⟩
    · rintro ⟨e, he⟩
      simp [stitchExec, hempty, hany'] at he

/-- Witness for C9: on the successful stitch of two 100x100 tiles with
overlap pair (20, 20), both opened tiles are closed and exactly the output
file is written. -/
theorem stitch_resource_discipline_witness :
    (stitchExec [(100, 100), (100, 100)] 20 20 defaultOut).closed =
      (stitchExec [(100, 100), (100, 100)] 20 20 defaultOut).opened ∧
    (stitchExec [(100, 100), (100, 100)] 20 20 defaultOut).written =
      [defaultOut] :=
  (stitch_resource_discipline [(100, 100), (100, 100)] 20 20 defaultOut
      (by decide)).1 ⟨(100, 160), rfl⟩

/-- C9 counterexample: with tiles 100x40 and 100x40 and overlap_top = 50
the second crop box is inverted; both opened tile images stay unclosed, so
tiles are not released when cropping raises. -/
theorem stitch_resource_discipline_cex :
    (stitchExec [(100, 40), (100, 40)] 50 0 defaultOut).opened = 2 ∧
    (stitchExec [(100, 40), (100, 40)] 50 0 defaultOut).closed = 0 ∧
    (stitchExec [(100, 40), (100, 40)] 50 0 defaultOut).outcome =
      Except.error invertedCropMsg := ⟨rfl, rfl, rfl⟩

end PlaywrightSnap
